/-
  Verification of the electric_bill_optimizer repository.

  The repository's files under src/ are the React frontend (Plans.js,
  App.js, Navbar, Dashboard).  The analysis/recommendation engine
  described by the specification (UsageSeries, AggregationEngine,
  AnomalyDetector, PlanCatalog, PlanRecommender) is a Python backend
  that is not among the provided source files; where a claim depends on
  it, the corresponding definition is modelled from the spec and marked
  as such in its doc comment.  Frontend components (Plans.js rendering,
  Dashboard upload handling) are embedded directly from the JavaScript
  source.
-/
import Mathlib

namespace ElectricBill

/-! ### Calendar dates -/

/-- A calendar date, as used by usage readings (`YYYY-MM-DD`). -/
structure Date where
  year : Int
  month : Nat
  day : Nat
deriving DecidableEq, Repr

/-- Strict chronological order on dates (lexicographic on year, month, day). -/
def Date.lt (a b : Date) : Prop :=
  a.year < b.year ∨
    (a.year = b.year ∧ (a.month < b.month ∨ (a.month = b.month ∧ a.day < b.day)))

instance (a b : Date) : Decidable (Date.lt a b) :=
  inferInstanceAs (Decidable (a.year < b.year ∨
    (a.year = b.year ∧ (a.month < b.month ∨ (a.month = b.month ∧ a.day < b.day)))))

/-! ### Plans and the recommender

Modelled from the spec: the PlanRecommender (spec §4.5) is part of the
Python backend, which is not among the provided source files. -/

/-- Modelled from the spec: a Plan record (spec §3) —
`{name, monthly_price, features, rate_kwh or absent, base_fee or absent}`.
Prices and rates are reals in currency units; we embed them as rationals. -/
structure Plan where
  name : String
  monthly_price : ℚ
  features : List String
  rate_kwh : Option ℚ
  base_fee : Option ℚ
deriving DecidableEq, Repr

/-- Modelled from the spec: UsageProfile (spec §3) —
`{average_daily_kwh, average_monthly_kwh}`. -/
structure UsageProfile where
  average_daily_kwh : ℚ
  average_monthly_kwh : ℚ
deriving DecidableEq, Repr

/-- Modelled from the spec: RankedPlans (spec §3) — three slots, each a
Plan or absent. -/
structure RankedPlans where
  best_plan : Option Plan
  second_best : Option Plan
  third_best : Option Plan
deriving DecidableEq, Repr

/-- Modelled from the spec (§4.5): a plan's estimated monthly cost is
`base_fee + rate_kwh * average_monthly_kwh` when `rate_kwh` is present,
else `monthly_price`. -/
def estimatedMonthlyCost (prof : UsageProfile) (p : Plan) : ℚ :=
  match p.rate_kwh with
  | some r => p.base_fee.getD 0 + r * prof.average_monthly_kwh
  | none => p.monthly_price

/-- Modelled from the spec (§4.5): the sort order on plans — ascending by
estimated monthly cost, ties broken lexicographically by plan name. -/
def planOrder (prof : UsageProfile) (a b : Plan) : Prop :=
  estimatedMonthlyCost prof a < estimatedMonthlyCost prof b ∨
    (estimatedMonthlyCost prof a = estimatedMonthlyCost prof b ∧ a.name ≤ b.name)

instance (prof : UsageProfile) : DecidableRel (planOrder prof) := fun a b =>
  inferInstanceAs (Decidable (estimatedMonthlyCost prof a < estimatedMonthlyCost prof b ∨
    (estimatedMonthlyCost prof a = estimatedMonthlyCost prof b ∧ a.name ≤ b.name)))

instance planOrderTotal (prof : UsageProfile) : IsTotal Plan (planOrder prof) := by
  constructor
  intro a b
  rcases lt_trichotomy (estimatedMonthlyCost prof a) (estimatedMonthlyCost prof b) with h | h | h
  · exact Or.inl (Or.inl h)
  · rcases le_total a.name b.name with hn | hn
    · exact Or.inl (Or.inr ⟨h, hn⟩)
    · exact Or.inr (Or.inr ⟨h.symm, hn⟩)
  · exact Or.inr (Or.inl h)

instance planOrderTrans (prof : UsageProfile) : IsTrans Plan (planOrder prof) := by
  constructor
  intro a b c hab hbc
  rcases hab with hab | ⟨hab, hnab⟩
  · rcases hbc with hbc | ⟨hbc, _⟩
    · exact Or.inl (hab.trans hbc)
    · exact Or.inl (hbc ▸ hab)
  · rcases hbc with hbc | ⟨hbc, hnbc⟩
    · exact Or.inl (hab ▸ hbc)
    · exact Or.inr ⟨hab.trans hbc, hnab.trans hnbc⟩

/-- Modelled from the spec (§4.5): sort the catalog ascending by estimated
monthly cost with name tie-break. -/
def rankPlans (prof : UsageProfile) (catalog : List Plan) : List Plan :=
  List.insertionSort (planOrder prof) catalog

/-- Modelled from the spec (§4.5): PlanRecommender — return the first three
of the sorted catalog as best/second/third, absent when the catalog has
fewer entries (and all absent on an empty catalog, spec §4.4). -/
def recommend (prof : UsageProfile) (catalog : List Plan) : RankedPlans :=
  { best_plan := (rankPlans prof catalog).get? 0
    second_best := (rankPlans prof catalog).get? 1
    third_best := (rankPlans prof catalog).get? 2 }

/-- The concrete scenario catalog plan A from spec §8
(`{name:"A",rate_kwh:0.10,base_fee:10}`; its flat price is irrelevant
because `rate_kwh` is present, we take 0). -/
def scenarioPlanA : Plan :=
  { name := "A", monthly_price := 0, features := [],
    rate_kwh := some (1/10), base_fee := some 10 }

/-- The concrete scenario catalog plan B from spec §8
(`{name:"B",monthly_price:60}`). -/
def scenarioPlanB : Plan :=
  { name := "B", monthly_price := 60, features := [],
    rate_kwh := none, base_fee := none }

/-- The concrete scenario profile from spec §8 (`average_monthly_kwh=400`). -/
def scenarioProfile : UsageProfile :=
  { average_daily_kwh := 40/3, average_monthly_kwh := 400 }

/-! ### Usage readings and the anomaly detector -/

/-- A usage reading (spec §3 UsageReading): a calendar date and a kWh value. -/
structure Reading where
  date : Date
  usage_kwh : ℚ
deriving DecidableEq, Repr

/-- AnomalyReport (spec §3): index-aligned sequences of flagged dates and
values, as consumed by Dashboard.js (`anomalies.anomaly_dates`,
`anomalies.anomaly_values`). -/
structure AnomalyReport where
  anomaly_dates : List Date
  anomaly_values : List ℚ
deriving DecidableEq, Repr

/-- Modelled from the spec (§4.3): the sample mean μ of the usage values. -/
def sampleMean (xs : List ℚ) : ℚ := xs.sum / xs.length

/-- Modelled from the spec (§4.3): the sample variance σ² of the usage
values, `Σ (x - μ)² / (n - 1)` (sample standard deviation squared). -/
def sampleVariance (xs : List ℚ) : ℚ :=
  (xs.map (fun x => (x - sampleMean xs) ^ 2)).sum / ((xs.length : ℚ) - 1)

/-- Modelled from the spec (§4.3): a value is anomalous when
`|x - μ| > k·σ`.  Both sides are nonnegative, so this is expressed
equivalently by squaring, `(x - μ)² > k²·σ²`, which keeps the embedding in
ℚ (σ itself is an irrational square root in general). -/
def anomalous (k : ℚ) (xs : List ℚ) (x : ℚ) : Bool :=
  decide ((x - sampleMean xs) ^ 2 > k ^ 2 * sampleVariance xs)

/-- Modelled from the spec (§4.3): AnomalyDetector — with fewer than 2
readings return an empty report; otherwise flag the readings whose value
deviates from μ by more than k·σ, preserving series order. -/
def detect (k : ℚ) (rs : List Reading) : AnomalyReport :=
  if rs.length < 2 then { anomaly_dates := [], anomaly_values := [] }
  else
    { anomaly_dates :=
        ((rs.filter fun r => anomalous k (rs.map Reading.usage_kwh) r.usage_kwh).map
          Reading.date)
      anomaly_values :=
        ((rs.filter fun r => anomalous k (rs.map Reading.usage_kwh) r.usage_kwh).map
          Reading.usage_kwh) }

/-! ### Aggregation engine (monthly summaries) -/

/-- The `(year, month)` grouping key of a date (spec §4.2). -/
def monthKey (d : Date) : Int × Nat := (d.year, d.month)

/-- Strict chronological order on month keys. -/
def monthLt (a b : Int × Nat) : Prop := a.1 < b.1 ∨ (a.1 = b.1 ∧ a.2 < b.2)

/-- Reflexive chronological order on month keys. -/
def monthLe (a b : Int × Nat) : Prop := monthLt a b ∨ a = b

instance (a b : Int × Nat) : Decidable (monthLt a b) :=
  inferInstanceAs (Decidable (a.1 < b.1 ∨ (a.1 = b.1 ∧ a.2 < b.2)))

instance (a b : Int × Nat) : Decidable (monthLe a b) :=
  inferInstanceAs (Decidable (monthLt a b ∨ a = b))

/-- MonthlySummary (spec §3): `{period_label, total_kwh, reading_count}`. -/
structure MonthlySummary where
  period_label : String
  total_kwh : ℚ
  reading_count : Nat
deriving DecidableEq, Repr

/-- Render a month key as a period label such as `2024-1`. -/
def monthLabel (k : Int × Nat) : String := toString k.1 ++ "-" ++ toString k.2

/-- Modelled from the spec (§4.2): accumulate the current `(year, month)`
group (running total and count) and emit one group per month. -/
def monthlyGroupsAux : (Int × Nat) → ℚ → Nat → List Reading → List ((Int × Nat) × ℚ × Nat)
  | cur, tot, cnt, [] => [(cur, tot, cnt)]
  | cur, tot, cnt, r :: rs =>
    if monthKey r.date = cur then monthlyGroupsAux cur (tot + r.usage_kwh) (cnt + 1) rs
    else (cur, tot, cnt) :: monthlyGroupsAux (monthKey r.date) r.usage_kwh 1 rs

/-- Modelled from the spec (§4.2): group the (date-ascending) series by
`(year, month)`; consecutive grouping coincides with grouping by key
because a UsageSeries is sorted ascending by date. -/
def monthlyGroups : List Reading → List ((Int × Nat) × ℚ × Nat)
  | [] => []
  | r :: rs => monthlyGroupsAux (monthKey r.date) r.usage_kwh 1 rs

/-- Modelled from the spec (§4.2): `monthly(series)` — one MonthlySummary
per `(year, month)` group, in chronological order. -/
def monthly (rs : List Reading) : List MonthlySummary :=
  (monthlyGroups rs).map fun g =>
    { period_label := monthLabel g.1, total_kwh := g.2.1, reading_count := g.2.2 }

/-! ### UsageSeries construction (validation) -/

/-- The validation error taxonomy (spec §7). -/
inductive BuildError where
  | MalformedRecord
  | DuplicateDate
deriving DecidableEq, Repr

/-- A raw input row from the upload handler: a date that may have failed
to parse and a usage value that may be non-numeric (spec §6: the core
receives already-tokenized rows and performs semantic validation only). -/
structure RawRecord where
  date : Option Date
  usage : Option ℚ
deriving DecidableEq, Repr

/-- Modelled from the spec (§4.1): semantic validation of one row — fails
with `MalformedRecord` when the date cannot be parsed or the usage is
negative or non-numeric. -/
def parseRecord (r : RawRecord) : Except BuildError Reading :=
  match r.date, r.usage with
  | some d, some u => if u < 0 then .error .MalformedRecord else .ok { date := d, usage_kwh := u }
  | _, _ => .error .MalformedRecord

/-- Modelled from the spec (§4.1, §7): validate every row; validation is
all-or-nothing, the first malformed row rejects the series. -/
def parseAll : List RawRecord → Except BuildError (List Reading)
  | [] => .ok []
  | r :: rs => do
    let x ← parseRecord r
    let xs ← parseAll rs
    pure (x :: xs)

/-- Date-ascending order on readings, used to sort a validated series. -/
def readingLe (a b : Reading) : Prop := Date.lt a.date b.date ∨ a.date = b.date

instance (a b : Reading) : Decidable (readingLe a b) :=
  inferInstanceAs (Decidable (Date.lt a.date b.date ∨ a.date = b.date))

/-- Modelled from the spec (§4.1): UsageSeries construction — validate all
rows, fail with `DuplicateDate` when two readings share a date (reject, no
silent merge), and on success return the series sorted ascending by date. -/
def buildSeries (raw : List RawRecord) : Except BuildError (List Reading) := do
  let rs ← parseAll raw
  if (rs.map Reading.date).Nodup then
    pure (List.insertionSort readingLe rs)
  else
    throw .DuplicateDate

/-! ### Plans.js (presentation of ranked plans)

Embedded from `src/src/components/Plans.js`. -/

/-- The plan shape the Plans component dereferences: it reads `name`,
`price` and `features` of each present slot (Plans.js lines 75–83,
96–104, 117–125). -/
structure FrontPlan where
  name : String
  price : ℚ
  features : List String
deriving DecidableEq, Repr

/-- The ranked-plans object the component receives from
`GET /api/plans` (Plans.js lines 68, 89, 110). -/
structure FrontRanked where
  best_plan : Option FrontPlan
  second_best : Option FrontPlan
  third_best : Option FrontPlan
deriving DecidableEq, Repr

/-- One rendered plan card (title, plan name, displayed price, features). -/
structure PlanCard where
  title : String
  name : String
  price : ℚ
  features : List String
deriving DecidableEq, Repr

/-- Embedded from Plans.js: `{plans.slot && (...)}` renders a card exactly
when the slot is present. -/
def slotCards (title : String) (slot : Option FrontPlan) : List PlanCard :=
  match slot with
  | none => []
  | some p => [{ title := title, name := p.name, price := p.price, features := p.features }]

/-- Embedded from Plans.js lines 67–130: the grid renders the best,
second-best and third-best cards, each conditional on its slot. -/
def planCards (rp : FrontRanked) : List PlanCard :=
  slotCards "Best Plan for You" rp.best_plan ++
    slotCards "Second Best Option" rp.second_best ++
      slotCards "Third Best Option" rp.third_best

/-- The four mutually exclusive renderings of the Plans component. -/
inductive PlansView where
  | loadingMsg
  | errorMsg (msg : String)
  | noPlans
  | grid (cards : List PlanCard)
deriving DecidableEq, Repr

/-- Embedded from Plans.js lines 49–131: the early-return guard chain —
loading, then error, then missing plans, then the plan grid. -/
def renderPlans (loading : Bool) (error : Option String) (plans : Option FrontRanked) :
    PlansView :=
  if loading then .loadingMsg
  else
    match error with
    | some e => .errorMsg e
    | none =>
      match plans with
      | none => .noPlans
      | some rp => .grid (planCards rp)

/-! ### Dynamic field access in Plans.js (for the displayed price) -/

/-- A JavaScript value delivered over the `/api/plans` boundary. -/
inductive JsValue where
  | num (q : ℚ)
  | str (s : String)
deriving DecidableEq, Repr

/-- A JavaScript object, as a list of field/value pairs. -/
def JsObject : Type := List (String × JsValue)

/-- Field access `o.k`: the first binding of field `k`, or absent
(`undefined`) when the object has no such field. -/
def jsGet (o : JsObject) (k : String) : Option JsValue :=
  (o.find? fun kv => kv.1 == k).map Prod.snd

/-- Embedded from Plans.js lines 77, 98, 119: the price the component
shows for a ranked plan object is `plan.price`. -/
def shownPrice (o : JsObject) : Option JsValue := jsGet o "price"

/-- A plan object shaped as the spec's Plan data model describes it
(spec §3): it carries `name` and `monthly_price` (no `price` field). -/
def specShapedPlanObj : JsObject :=
  [("name", .str "B"), ("monthly_price", .num 60)]

/-- A plan object carrying both a `monthly_price` field and a distinct
`price` field. -/
def twoPricePlanObj : JsObject :=
  [("monthly_price", .num 60), ("price", .num 50)]

/-! ### Dashboard.js (upload handling and anomaly lines) -/

/-- The analysis payload the Dashboard stores (part_001 lines 90,
126, 140): base64 plot images. -/
structure AnalysisData where
  monthly_plot : String
  weekly_plot : String
deriving DecidableEq, Repr

/-- The Dashboard component state (part_001 lines 77–79). -/
structure DashboardState where
  file : Option String
  analysis : Option AnalysisData
  anomalies : Option AnomalyReport
deriving DecidableEq, Repr

/-- The outcome of the `POST /api/upload` request. -/
inductive UploadOutcome where
  | success (analysis : AnalysisData) (anomalies : AnomalyReport)
  | failure
deriving DecidableEq, Repr

/-- Embedded from part_001 lines 81–95 (`handleFileUpload`): the file is
stored, then on success the analysis and anomalies are replaced; on a
request failure the error is only logged and no state is written. -/
def handleFileUpload (s : DashboardState) (f : String) (out : UploadOutcome) :
    DashboardState :=
  let s1 : DashboardState := { s with file := some f }
  match out with
  | .success a an => { s1 with analysis := some a, anomalies := some an }
  | .failure => s1

/-- Embedded from part_001 lines 157–161: the anomaly card maps over
`anomaly_dates` with index and pairs each date with
`anomaly_values[index]` (absent when the index is out of range). -/
def dashboardAnomalyLines (rep : AnomalyReport) : List (Date × Option ℚ) :=
  rep.anomaly_dates.enum.map fun id => (id.2, rep.anomaly_values.get? id.1)

/-- A concrete constant-usage series (two days at 5 kWh). -/
def constSeries : List Reading :=
  [{ date := { year := 2024, month := 1, day := 1 }, usage_kwh := 5 },
   { date := { year := 2024, month := 1, day := 2 }, usage_kwh := 5 }]

/-- A concrete date-ascending series crossing a month boundary, with a
single-reading month. -/
def janFebSeries : List Reading :=
  [{ date := { year := 2024, month := 1, day := 30 }, usage_kwh := 10 },
   { date := { year := 2024, month := 1, day := 31 }, usage_kwh := 12 },
   { date := { year := 2024, month := 2, day := 1 }, usage_kwh := 7 }]

/-! ## Supporting lemmas -/

/-- The plan order implies the cost comparison (ties have equal cost). -/
lemma planOrder_cost_le {prof : UsageProfile} {a b : Plan} (h : planOrder prof a b) :
    estimatedMonthlyCost prof a ≤ estimatedMonthlyCost prof b := by
  rcases h with h | ⟨h, _⟩
  · exact le_of_lt h
  · exact le_of_eq h

/-- In the spec §8 scenario, plan A (cost 50) sorts before plan B (cost 60). -/
lemma rankPlans_scenario :
    rankPlans scenarioProfile [scenarioPlanA, scenarioPlanB] =
      [scenarioPlanA, scenarioPlanB] := by
  have h : planOrder scenarioProfile scenarioPlanA scenarioPlanB := by
    left
    norm_num [estimatedMonthlyCost, scenarioPlanA, scenarioPlanB, scenarioProfile]
  simp only [rankPlans, List.insertionSort, List.orderedInsert, if_pos h]

/-- Validating a list of well-formed rows succeeds with the evident readings. -/
lemma parseAll_map_wellformed (pairs : List (Date × ℚ)) (h : ∀ p ∈ pairs, 0 ≤ p.2) :
    parseAll (pairs.map fun p => { date := some p.1, usage := some p.2 }) =
      .ok (pairs.map fun p => { date := p.1, usage_kwh := p.2 }) := by
  induction pairs with
  | nil => rfl
  | cons p ps ih =>
    have h0 : ¬ p.2 < 0 := not_lt.mpr (h p (List.mem_cons_self p ps))
    have ih2 := ih fun q hq => h q (List.mem_cons_of_mem p hq)
    simp only [List.map_cons, parseAll, parseRecord, if_neg h0, ih2]
    rfl

/-- Series construction after a successful validation reduces to the
duplicate-date check. -/
lemma buildSeries_of_parse (raw : List RawRecord) (rs : List Reading)
    (h : parseAll raw = .ok rs) :
    buildSeries raw =
      if (rs.map Reading.date).Nodup then .ok (List.insertionSort readingLe rs)
      else .error .DuplicateDate := by
  unfold buildSeries
  rw [h]
  show (if (rs.map Reading.date).Nodup then _ else _) = _
  split <;> rfl

/-- Mapping over an indexed enumeration that reads a second list at the
index is the same as zipping, when the lengths agree. -/
lemma enumFrom_pairing {α β : Type} : ∀ (ds : List α) (n : Nat) (full vs : List β),
    (∀ i, full.get? (n + i) = vs.get? i) → ds.length = vs.length →
    (List.enumFrom n ds).map (fun id => (id.2, full.get? id.1)) =
      (ds.zip vs).map fun dv => (dv.1, some dv.2) := by
  intro ds
  induction ds with
  | nil => intro n full vs h hlen; simp
  | cons d ds ih =>
    intro n full vs h hlen
    cases vs with
    | nil => simp at hlen
    | cons v vs2 =>
      have hhead : full.get? n = some v := by
        have h0 := h 0
        simpa using h0
      have htail : ∀ i, full.get? (n + 1 + i) = vs2.get? i := by
        intro i
        have hi := h (i + 1)
        have harith : n + (i + 1) = n + 1 + i := by omega
        rw [harith] at hi
        simpa using hi
      have hlen2 : ds.length = vs2.length := by simpa using hlen
      simp only [List.enumFrom, List.map_cons, List.zip_cons_cons, hhead]
      rw [ih (n + 1) full vs2 htail hlen2]

/-- The running monthly total accumulates exactly the remaining usage. -/
lemma monthlyGroupsAux_sum : ∀ (rs : List Reading) (cur : Int × Nat) (tot : ℚ) (cnt : Nat),
    ((monthlyGroupsAux cur tot cnt rs).map (fun g => g.2.1)).sum =
      tot + (rs.map Reading.usage_kwh).sum := by
  intro rs
  induction rs with
  | nil => intro cur tot cnt; simp [monthlyGroupsAux]
  | cons r rs ih =>
    intro cur tot cnt
    by_cases hk : monthKey r.date = cur
    · simp only [monthlyGroupsAux, if_pos hk, List.map_cons, List.sum_cons, ih]
      rw [add_assoc]
    · simp only [monthlyGroupsAux, if_neg hk, List.map_cons, List.sum_cons, ih]

/-- Chronological date order weakens to chronological month-key order. -/
lemma date_lt_monthLe {a b : Date} (h : Date.lt a b) : monthLe (monthKey a) (monthKey b) := by
  rcases h with h | ⟨hy, h⟩
  · exact Or.inl (Or.inl h)
  · rcases h with h | ⟨hm, _⟩
    · exact Or.inl (Or.inr ⟨hy, h⟩)
    · exact Or.inr (by simp [monthKey, hy, hm])

/-- When the remaining month keys are nondecreasing and start at the
current group, the emitted group keys are strictly increasing and start
with the current key. -/
lemma monthlyGroupsAux_chain : ∀ (rs : List Reading) (cur : Int × Nat) (tot : ℚ) (cnt : Nat),
    List.Chain' monthLe (cur :: rs.map (fun r => monthKey r.date)) →
    ((monthlyGroupsAux cur tot cnt rs).map Prod.fst).head? = some cur ∧
    List.Chain' monthLt ((monthlyGroupsAux cur tot cnt rs).map Prod.fst) := by
  intro rs
  induction rs with
  | nil =>
    intro cur tot cnt _
    constructor
    · rfl
    · simp [monthlyGroupsAux]
  | cons r rs ih =>
    intro cur tot cnt h
    rw [List.map_cons] at h
    obtain ⟨h1, h2⟩ := List.chain'_cons.mp h
    by_cases hk : monthKey r.date = cur
    · rw [hk] at h2
      simpa only [monthlyGroupsAux, if_pos hk] using ih cur (tot + r.usage_kwh) (cnt + 1) h2
    · obtain ⟨hhead, hchain⟩ := ih (monthKey r.date) r.usage_kwh 1 h2
      simp only [monthlyGroupsAux, if_neg hk, List.map_cons]
      refine ⟨rfl, ?_⟩
      rw [List.chain'_cons']
      refine ⟨?_, hchain⟩
      intro y hy
      rw [hhead, Option.mem_def, Option.some.injEq] at hy
      subst hy
      rcases h1 with h1 | h1
      · exact h1
      · exact absurd h1.symm hk

instance : IsTrans (Int × Nat) monthLt := by
  constructor
  intro a b c hab hbc
  rcases hab with hab | ⟨hab, hab2⟩
  · rcases hbc with hbc | ⟨hbc, _⟩
    · exact Or.inl (hab.trans hbc)
    · exact Or.inl (hbc ▸ hab)
  · rcases hbc with hbc | ⟨hbc, hbc2⟩
    · exact Or.inl (hab ▸ hbc)
    · exact Or.inr ⟨hab.trans hbc, hab2.trans hbc2⟩

/-- Strictly increasing month keys are distinct. -/
lemma monthLt_ne {a b : Int × Nat} (h : monthLt a b) : a ≠ b := by
  rintro rfl
  rcases h with h | ⟨_, h⟩ <;> exact lt_irrefl _ h

/-! ## Claim theorems -/

/-- C1: PlanRecommender scores each plan as `base_fee + rate_kwh *
average_monthly_kwh` when `rate_kwh` is present and as `monthly_price`
otherwise, sorts ascending by cost with name tie-break (the sorted list is
a permutation of the catalog, cost-monotone in rank position), returns the
first three as best/second/third, and on the spec §8 catalog with
`average_monthly_kwh = 400` yields best = A, second = B, third absent. -/
theorem c1_recommender_ranks_by_estimated_cost :
    (∀ (prof : UsageProfile) (p : Plan) (r : ℚ), p.rate_kwh = some r →
        estimatedMonthlyCost prof p = p.base_fee.getD 0 + r * prof.average_monthly_kwh) ∧
    (∀ (prof : UsageProfile) (p : Plan), p.rate_kwh = none →
        estimatedMonthlyCost prof p = p.monthly_price) ∧
    (∀ (prof : UsageProfile) (catalog : List Plan),
        (rankPlans prof catalog).Perm catalog) ∧
    (∀ (prof : UsageProfile) (catalog : List Plan),
        List.Sorted (planOrder prof) (rankPlans prof catalog)) ∧
    (∀ (prof : UsageProfile) (catalog : List Plan) (a b : Plan) (i j : Nat),
        (rankPlans prof catalog).get? i = some a →
        (rankPlans prof catalog).get? j = some b → i < j →
        estimatedMonthlyCost prof a ≤ estimatedMonthlyCost prof b) ∧
    (∀ (prof : UsageProfile) (catalog : List Plan),
        recommend prof catalog =
          { best_plan := (rankPlans prof catalog).get? 0,
            second_best := (rankPlans prof catalog).get? 1,
            third_best := (rankPlans prof catalog).get? 2 }) ∧
    recommend scenarioProfile [scenarioPlanA, scenarioPlanB] =
      { best_plan := some scenarioPlanA, second_best := some scenarioPlanB,
        third_best := none } := by
  refine ⟨?_, ?_, ?_, ?_, ?_, ?_, ?_⟩
  · intro prof p r h
    unfold estimatedMonthlyCost
    rw [h]
  · intro prof p h
    unfold estimatedMonthlyCost
    rw [h]
  · intro prof catalog
    exact List.perm_insertionSort (planOrder prof) catalog
  · intro prof catalog
    exact List.sorted_insertionSort (planOrder prof) catalog
  · intro prof catalog a b i j ha hb hij
    obtain ⟨hi, hga⟩ := List.get?_eq_some.mp ha
    obtain ⟨hj, hgb⟩ := List.get?_eq_some.mp hb
    have hs : List.Sorted (planOrder prof) (rankPlans prof catalog) :=
      List.sorted_insertionSort (planOrder prof) catalog
    have hrel := hs.rel_get_of_lt (a := ⟨i, hi⟩) (b := ⟨j, hj⟩) (Fin.mk_lt_mk.mpr hij)
    rw [hga, hgb] at hrel
    exact planOrder_cost_le hrel
  · intro prof catalog
    rfl
  · rw [recommend, rankPlans_scenario]
    rfl

/-- C1 witness: the universally quantified parts of the claim applied at
the spec §8 scenario inputs. -/
theorem c1_recommender_ranks_by_estimated_cost_witness :
    estimatedMonthlyCost scenarioProfile scenarioPlanA =
      scenarioPlanA.base_fee.getD 0 + (1/10) * scenarioProfile.average_monthly_kwh ∧
    estimatedMonthlyCost scenarioProfile scenarioPlanB = scenarioPlanB.monthly_price ∧
    (rankPlans scenarioProfile [scenarioPlanA, scenarioPlanB]).Perm
      [scenarioPlanA, scenarioPlanB] ∧
    estimatedMonthlyCost scenarioProfile scenarioPlanA ≤
      estimatedMonthlyCost scenarioProfile scenarioPlanB := by
  refine ⟨c1_recommender_ranks_by_estimated_cost.1 scenarioProfile scenarioPlanA (1/10) rfl,
    c1_recommender_ranks_by_estimated_cost.2.1 scenarioProfile scenarioPlanB rfl,
    c1_recommender_ranks_by_estimated_cost.2.2.1 scenarioProfile _, ?_⟩
  refine c1_recommender_ranks_by_estimated_cost.2.2.2.2.1 scenarioProfile
    [scenarioPlanA, scenarioPlanB] scenarioPlanA scenarioPlanB 0 1 ?_ ?_ (by decide)
  · rw [rankPlans_scenario]
    rfl
  · rw [rankPlans_scenario]
    rfl

/-- C2: each slot of the ranked-plans object is a plan or absent; the
Plans view renders one card per present slot (none for an absent slot,
so the number of cards is the number of present slots), and with all
three slots absent it renders the grid with no cards and no error view. -/
theorem c2_slots_render_iff_present :
    (∀ (t : String) (p : FrontPlan),
        slotCards t (some p) =
          [{ title := t, name := p.name, price := p.price, features := p.features }]) ∧
    (∀ t : String, slotCards t none = []) ∧
    (∀ rp : FrontRanked,
        (planCards rp).length = (if rp.best_plan.isSome then 1 else 0) +
          ((if rp.second_best.isSome then 1 else 0) +
            (if rp.third_best.isSome then 1 else 0))) ∧
    (∀ rp : FrontRanked, rp.best_plan = none → rp.second_best = none →
        rp.third_best = none → renderPlans false none (some rp) = .grid []) := by
  refine ⟨fun t p => rfl, fun t => rfl, ?_, ?_⟩
  · intro rp
    rcases rp with ⟨b, s, t⟩
    cases b <;> cases s <;> cases t <;> simp [planCards, slotCards]
  · intro rp h1 h2 h3
    simp [renderPlans, planCards, slotCards, h1, h2, h3]

/-- C2 witness: the all-absent ranked-plans object renders as an empty
grid. -/
theorem c2_slots_render_iff_present_witness :
    renderPlans false none
        (some { best_plan := none, second_best := none, third_best := none }) = .grid [] :=
  c2_slots_render_iff_present.2.2.2
    { best_plan := none, second_best := none, third_best := none } rfl rfl rfl

/-- C3: on a series with fewer than 2 readings, and on a series whose
usage values are all equal (sample standard deviation zero), the anomaly
detector returns the empty report and does not fail. -/
theorem c3_detector_empty_on_degenerate_series :
    (∀ (k : ℚ) (rs : List Reading), rs.length < 2 →
        detect k rs = { anomaly_dates := [], anomaly_values := [] }) ∧
    (∀ (k : ℚ) (rs : List Reading) (c : ℚ), (∀ r ∈ rs, r.usage_kwh = c) →
        detect k rs = { anomaly_dates := [], anomaly_values := [] }) := by
  constructor
  · intro k rs h
    simp [detect, h]
  · intro k rs c hc
    by_cases hlen : rs.length < 2
    · simp [detect, hlen]
    · have hn : ((rs.length : ℚ)) ≠ 0 := by
        have h2 : 2 ≤ rs.length := Nat.le_of_not_lt hlen
        have h3 : rs.length ≠ 0 := by omega
        exact_mod_cast h3
      have hxs : ∀ x ∈ rs.map Reading.usage_kwh, x = c := by
        intro x hx
        rcases List.mem_map.mp hx with ⟨r, hr, rfl⟩
        exact hc r hr
      have hmean : sampleMean (rs.map Reading.usage_kwh) = c := by
        unfold sampleMean
        rw [List.sum_eq_card_nsmul _ c hxs, List.length_map, nsmul_eq_mul]
        exact mul_div_cancel_left₀ c hn
      have hvar : sampleVariance (rs.map Reading.usage_kwh) = 0 := by
        unfold sampleVariance
        rw [List.sum_eq_zero, zero_div]
        intro y hy
        rcases List.mem_map.mp hy with ⟨x, hx, rfl⟩
        rw [hmean, hxs x hx]
        ring
      have hanom : ∀ r ∈ rs, ¬ (anomalous k (rs.map Reading.usage_kwh) r.usage_kwh = true) := by
        intro r hr
        unfold anomalous
        simp [hmean, hvar, hc r hr]
      have hfilter :
          rs.filter (fun r => anomalous k (rs.map Reading.usage_kwh) r.usage_kwh) = [] :=
        List.filter_eq_nil_iff.mpr hanom
      simp [detect, hlen, hfilter]

/-- C3 witness: the empty series and a concrete constant series both get
the empty report. -/
theorem c3_detector_empty_on_degenerate_series_witness :
    detect 2 ([] : List Reading) = { anomaly_dates := [], anomaly_values := [] } ∧
    detect 2 constSeries = { anomaly_dates := [], anomaly_values := [] } := by
  constructor
  · exact c3_detector_empty_on_degenerate_series.1 2 [] (by decide)
  · refine c3_detector_empty_on_degenerate_series.2 2 constSeries 5 ?_
    intro r hr
    simp only [constSeries, List.mem_cons, List.not_mem_nil, or_false] at hr
    rcases hr with rfl | rfl <;> rfl

/-- C4: monthly aggregation is lossless — the summaries' totals sum to the
series' total usage — and on a date-ascending series it emits one summary
per `(year, month)` group in strictly chronological order (distinct
keys), months with a single reading included. -/
theorem c4_monthly_lossless_and_chronological :
    (∀ rs : List Reading,
        ((monthly rs).map MonthlySummary.total_kwh).sum = (rs.map Reading.usage_kwh).sum) ∧
    (∀ rs : List Reading,
        List.Chain' Date.lt (rs.map Reading.date) →
        List.Chain' monthLt ((monthlyGroups rs).map Prod.fst) ∧
        ((monthlyGroups rs).map Prod.fst).Nodup) := by
  constructor
  · intro rs
    cases rs with
    | nil => rfl
    | cons r rs =>
      unfold monthly monthlyGroups
      rw [List.map_map]
      have hcomp :
          (MonthlySummary.total_kwh ∘ fun g : (Int × Nat) × ℚ × Nat =>
            ({ period_label := monthLabel g.1, total_kwh := g.2.1, reading_count := g.2.2 } :
              MonthlySummary)) = fun g => g.2.1 := rfl
      rw [hcomp, monthlyGroupsAux_sum]
      simp
  · intro rs hdates
    have hkeys : List.Chain' monthLe (rs.map (fun r => monthKey r.date)) := by
      rw [List.chain'_map] at hdates ⊢
      exact hdates.imp fun a b h => date_lt_monthLe h
    have hmain : List.Chain' monthLt ((monthlyGroups rs).map Prod.fst) := by
      cases rs with
      | nil => simp [monthlyGroups]
      | cons r rs =>
        rw [List.map_cons] at hkeys
        exact (monthlyGroupsAux_chain rs (monthKey r.date) r.usage_kwh 1 hkeys).2
    refine ⟨hmain, ?_⟩
    have hpw := List.chain'_iff_pairwise.mp hmain
    exact hpw.imp fun h => monthLt_ne h

/-- C4 witness: the claim applied to a concrete ascending series crossing
a month boundary. -/
theorem c4_monthly_lossless_and_chronological_witness :
    ((monthly janFebSeries).map MonthlySummary.total_kwh).sum =
      (janFebSeries.map Reading.usage_kwh).sum ∧
    List.Chain' monthLt ((monthlyGroups janFebSeries).map Prod.fst) ∧
    ((monthlyGroups janFebSeries).map Prod.fst).Nodup := by
  refine ⟨c4_monthly_lossless_and_chronological.1 janFebSeries, ?_⟩
  refine c4_monthly_lossless_and_chronological.2 janFebSeries ?_
  simp only [janFebSeries, List.map_cons, List.map_nil]
  rw [List.chain'_cons, List.chain'_cons]
  exact ⟨by decide, by decide, List.chain'_singleton _⟩

/-- C5 counterexample: the claim says the shown price is the plan's
`monthly_price` field, but the Plans component reads the `price` field:
on an object carrying `monthly_price = 60` and `price = 50` the two
disagree. -/
theorem c5_price_counterexample :
    ¬ shownPrice twoPricePlanObj = jsGet twoPricePlanObj "monthly_price" := by
  decide

/-- C5 (amended): the price shown for a ranked plan is the object's
`price` field, not `monthly_price`; in particular an object shaped as the
spec's Plan data model (which has `monthly_price` and no `price`) shows
an absent (`undefined`) price. -/
theorem c5_shown_price_is_price_field :
    (∀ o : JsObject, shownPrice o = jsGet o "price") ∧
    (∀ o : JsObject, jsGet o "price" = none → shownPrice o = none) ∧
    shownPrice specShapedPlanObj = none ∧
    jsGet specShapedPlanObj "monthly_price" = some (.num 60) := by
  refine ⟨fun o => rfl, fun o h => h, by decide, by decide⟩

/-- C5 witness: the amended claim applied to the spec-shaped plan object. -/
theorem c5_shown_price_is_price_field_witness :
    shownPrice specShapedPlanObj = none :=
  c5_shown_price_is_price_field.2.1 specShapedPlanObj (by decide)

/-- C6: every report the detector produces has index-aligned dates and
values (equal lengths, both the series order restricted to the flagged
readings), and under the length invariant the Dashboard renders one line
per flagged day pairing the i-th date with the i-th value, in order. -/
theorem c6_report_aligned_and_dashboard_pairs :
    (∀ (k : ℚ) (rs : List Reading),
        (detect k rs).anomaly_dates.length = (detect k rs).anomaly_values.length) ∧
    (∀ (k : ℚ) (rs : List Reading), 2 ≤ rs.length →
        (detect k rs).anomaly_dates =
          ((rs.filter fun r => anomalous k (rs.map Reading.usage_kwh) r.usage_kwh).map
            Reading.date) ∧
        (detect k rs).anomaly_values =
          ((rs.filter fun r => anomalous k (rs.map Reading.usage_kwh) r.usage_kwh).map
            Reading.usage_kwh)) ∧
    (∀ rep : AnomalyReport,
        rep.anomaly_dates.length = rep.anomaly_values.length →
        dashboardAnomalyLines rep =
          (rep.anomaly_dates.zip rep.anomaly_values).map fun dv => (dv.1, some dv.2)) := by
  refine ⟨?_, ?_, ?_⟩
  · intro k rs
    unfold detect
    split
    · rfl
    · simp
  · intro k rs h
    rw [detect, if_neg (not_lt.mpr h)]
    exact ⟨rfl, rfl⟩
  · intro rep h
    unfold dashboardAnomalyLines
    have henum : rep.anomaly_dates.enum = List.enumFrom 0 rep.anomaly_dates := rfl
    rw [henum]
    exact enumFrom_pairing rep.anomaly_dates 0 rep.anomaly_values rep.anomaly_values
      (fun i => by simp) h

/-- C6 witness: the claim applied to the constant two-day series and to a
concrete one-anomaly report. -/
theorem c6_report_aligned_and_dashboard_pairs_witness :
    ((detect 2 constSeries).anomaly_dates =
      ((constSeries.filter fun r =>
          anomalous 2 (constSeries.map Reading.usage_kwh) r.usage_kwh).map Reading.date) ∧
      (detect 2 constSeries).anomaly_values =
        ((constSeries.filter fun r =>
            anomalous 2 (constSeries.map Reading.usage_kwh) r.usage_kwh).map
          Reading.usage_kwh)) ∧
    dashboardAnomalyLines
        { anomaly_dates := [{ year := 2024, month := 1, day := 4 }],
          anomaly_values := [95] } =
      (([{ year := 2024, month := 1, day := 4 }] : List Date).zip ([95] : List ℚ)).map
        fun dv => (dv.1, some dv.2) := by
  constructor
  · exact c6_report_aligned_and_dashboard_pairs.2.1 2 constSeries (by decide)
  · exact c6_report_aligned_and_dashboard_pairs.2.2
      { anomaly_dates := [{ year := 2024, month := 1, day := 4 }], anomaly_values := [95] }
      rfl

/-- C7: an input of well-formed (date, usage) pairs containing two
readings with the same date is rejected with `DuplicateDate` (no silent
merge); in particular `[(2024-01-01, 10), (2024-01-01, 12)]` is. -/
theorem c7_duplicate_date_rejected :
    (∀ (pairs : List (Date × ℚ)),
        (∀ p ∈ pairs, 0 ≤ p.2) →
        ¬ (pairs.map Prod.fst).Nodup →
        buildSeries (pairs.map fun p => { date := some p.1, usage := some p.2 }) =
          .error .DuplicateDate) ∧
    buildSeries
        [{ date := some { year := 2024, month := 1, day := 1 }, usage := some 10 },
         { date := some { year := 2024, month := 1, day := 1 }, usage := some 12 }] =
      .error .DuplicateDate := by
  have main : ∀ (pairs : List (Date × ℚ)),
      (∀ p ∈ pairs, 0 ≤ p.2) →
      ¬ (pairs.map Prod.fst).Nodup →
      buildSeries (pairs.map fun p => { date := some p.1, usage := some p.2 }) =
        .error .DuplicateDate := by
    intro pairs h hdup
    rw [buildSeries_of_parse _ _ (parseAll_map_wellformed pairs h)]
    rw [if_neg]
    intro hnd
    apply hdup
    have hdates :
        ((pairs.map fun p => ({ date := p.1, usage_kwh := p.2 } : Reading)).map
          Reading.date) = pairs.map Prod.fst := by
      simp [List.map_map, Function.comp]
    rwa [hdates] at hnd
  refine ⟨main, ?_⟩
  have happ := main [({ year := 2024, month := 1, day := 1 }, 10),
                     ({ year := 2024, month := 1, day := 1 }, 12)]
    (by intro p hp; simp at hp; rcases hp with h | h <;> rw [h] <;> norm_num)
    (by simp)
  simpa using happ

/-- C7 witness: the general part of the claim applied to the concrete
duplicate-date input. -/
theorem c7_duplicate_date_rejected_witness :
    buildSeries
        ([({ year := 2024, month := 1, day := 1 }, (10 : ℚ)),
          ({ year := 2024, month := 1, day := 1 }, (12 : ℚ))].map
          fun p => { date := some p.1, usage := some p.2 }) =
      .error .DuplicateDate :=
  c7_duplicate_date_rejected.1
    [({ year := 2024, month := 1, day := 1 }, 10),
     ({ year := 2024, month := 1, day := 1 }, 12)]
    (by intro p hp; simp at hp; rcases hp with h | h <;> rw [h] <;> norm_num)
    (by simp)

/-- C8: the recommender is a deterministic pure function — two runs on the
same (profile, catalog) pair, or on equal copies of it, give equal
RankedPlans (mutation is impossible in this pure embedding). -/
theorem c8_recommender_deterministic :
    ∀ (prof : UsageProfile) (catalog : List Plan),
      recommend prof catalog = recommend prof catalog ∧
      ∀ (prof2 : UsageProfile) (catalog2 : List Plan),
        prof = prof2 → catalog = catalog2 →
        recommend prof catalog = recommend prof2 catalog2 := by
  intro prof catalog
  refine ⟨rfl, ?_⟩
  intro prof2 catalog2 h1 h2
  rw [h1, h2]

/-- C8 witness: determinism at the spec §8 scenario inputs. -/
theorem c8_recommender_deterministic_witness :
    recommend scenarioProfile [scenarioPlanA, scenarioPlanB] =
      recommend scenarioProfile [scenarioPlanA, scenarioPlanB] :=
  (c8_recommender_deterministic scenarioProfile [scenarioPlanA, scenarioPlanB]).2
    scenarioProfile [scenarioPlanA, scenarioPlanB] rfl rfl

/-- C9: for every state of the Plans component exactly one of the four
views — loading, error, no-plans fallback, plan grid — is rendered (the
four guard conditions are mutually exclusive and exhaustive), and plan
fields are dereferenced only in the grid branch, which is reached only
after the loading, error and null-plans guards have all passed. -/
theorem c9_exactly_one_view_guarded_deref :
    ∀ (l : Bool) (e : Option String) (p : Option FrontRanked),
      (renderPlans l e p = .loadingMsg ↔ l = true) ∧
      ((∃ s, renderPlans l e p = .errorMsg s) ↔ (l = false ∧ e ≠ none)) ∧
      (renderPlans l e p = .noPlans ↔ (l = false ∧ e = none ∧ p = none)) ∧
      ((∃ cs, renderPlans l e p = .grid cs) ↔ (l = false ∧ e = none ∧ p ≠ none)) ∧
      (∀ rp, l = false → e = none → p = some rp →
        renderPlans l e p = .grid (planCards rp)) := by
  intro l e p
  cases l <;> cases e <;> cases p <;> simp [renderPlans]

/-- C9 witness: the grid branch applied at a concrete post-guard state. -/
theorem c9_exactly_one_view_guarded_deref_witness :
    renderPlans false none
        (some { best_plan := none, second_best := none, third_best := none }) =
      .grid (planCards { best_plan := none, second_best := none, third_best := none }) :=
  (c9_exactly_one_view_guarded_deref false none
      (some { best_plan := none, second_best := none, third_best := none })).2.2.2.2
    { best_plan := none, second_best := none, third_best := none } rfl rfl rfl

/-- C10: when the upload request fails, the Dashboard handler leaves the
analysis and anomalies state unchanged — no partial result replaces the
previously displayed output. -/
theorem c10_failed_upload_preserves_state :
    ∀ (s : DashboardState) (f : String),
      (handleFileUpload s f .failure).analysis = s.analysis ∧
      (handleFileUpload s f .failure).anomalies = s.anomalies := by
  intro s f
  exact ⟨rfl, rfl⟩

end ElectricBill
